import Mathlib

/-!
Verification development for the Escher tessellation lab editor.

The embedding below is a shallow translation of the editor source
(geometry kernel, tile mutation engine, history manager, click
registration).  Coordinates are modelled as exact rationals; the external
polygon boolean-operations provider (the npm package polygon-clipping) is
not part of the repository, so it is modelled as a record of fallible
functions (a `PCLib`): each operation either returns a multi-polygon or
an error, mirroring the try/catch structure of the source.  Serialization
based deep copies in the history hook are identity on values in a pure
setting.
-/

/-- Points are exact rational coordinate pairs. -/
abbrev Pt : Type := ℚ × ℚ

/-- MultiPolygon representation of polygon-clipping: a list of polygons,
each polygon a list of rings, each ring a list of points. -/
abbrev MP : Type := List (List (List Pt))

/-- Source `rectMultiPolygon`: the axis-aligned tile rectangle. -/
def rectMultiPolygon (w h : ℚ) : MP := [[[(0, 0), (w, 0), (w, h), (0, h)]]]

/-- Source `translateRing`: add a fixed offset to every point of a ring. -/
def translateRing (ring : List Pt) (dx dy : ℚ) : List Pt :=
  ring.map fun p => (p.1 + dx, p.2 + dy)

/-- Source `translatePoly`: translate every ring of a polygon. -/
def translatePoly (poly : List (List Pt)) (dx dy : ℚ) : List (List Pt) :=
  poly.map fun ring => translateRing ring dx dy

/-- Source `translateMP`: translate every polygon of a multi-polygon. -/
def translateMP (mp : MP) (dx dy : ℚ) : MP :=
  mp.map fun poly => translatePoly poly dx dy

/-- Source `withinBounds`: the bounds predicate `x >= 0 && x <= w && y >= 0 && y <= h`. -/
def withinBounds (x y w h : ℚ) : Bool :=
  decide (0 ≤ x) && decide (x ≤ w) && decide (0 ≤ y) && decide (y ≤ h)

/-- Source `simplePolygonToMP`: wrap a point list as a one-polygon,
one-ring multi-polygon. -/
def simplePolygonToMP (points : List Pt) : MP := [[points]]

/-- Squared Euclidean distance between two points.  The source computes
`Math.hypot` and compares the distance with the tolerance `1e-6`; over
exact numbers that comparison is equivalent to comparing the squared
distance with `(1/1000000)^2`, which avoids square roots. -/
def distanceSq (a b : Pt) : ℚ :=
  (a.1 - b.1) ^ 2 + (a.2 - b.2) ^ 2

/-- The external polygon boolean-operations provider (npm package
polygon-clipping).  Each operation may fail, mirroring the try/catch
blocks wrapped around every call in the source. -/
structure PCLib : Type where
  union : MP → MP → Except Unit MP
  difference : MP → MP → Except Unit MP
  intersection : MP → MP → Except Unit MP

/-- Source `intersectWithBounds` (the clip-to-bounds operation of the
spec): intersect with the tile rectangle; an empty or missing result
becomes the empty shape, and on an error the input is kept unchanged. -/
def intersectWithBounds (lib : PCLib) (mp : MP) (w h : ℚ) : MP :=
  match lib.intersection mp (rectMultiPolygon w h) with
  | .ok out => if out.isEmpty then [] else out
  | .error _ => mp

/-- Source `mpUnion`: union then clip to bounds; on an error of the union
itself, return the first operand unchanged. -/
def mpUnion (lib : PCLib) (a b : MP) (w h : ℚ) : MP :=
  match lib.union a b with
  | .ok u => intersectWithBounds lib u w h
  | .error _ => a

/-- Source `mpDiff`: difference then clip to bounds; fail-soft on error. -/
def mpDiff (lib : PCLib) (a b : MP) (w h : ℚ) : MP :=
  match lib.difference a b with
  | .ok d => intersectWithBounds lib d w h
  | .error _ => a

/-- Source `mpIntersect`: intersection then clip to bounds; fail-soft on
error. -/
def mpIntersect (lib : PCLib) (a b : MP) (w h : ℚ) : MP :=
  match lib.intersection a b with
  | .ok i => intersectWithBounds lib i w h
  | .error _ => a

/-- Interaction modes of the editor. -/
inductive Mode : Type where
  | select
  | draw
  | cutSlideLR
  | cutSlideRL
  | cutSlideTB
  | cutSlideBT
  | booleanAdd
  | booleanSub
deriving DecidableEq, Repr

/-- The two boolean operations accepted by `applyBoolean`. -/
inductive BoolOp : Type where
  | add
  | sub
deriving DecidableEq, Repr

/-- The four cut-and-slide directions accepted by `applyCutSlide`. -/
inductive Dir : Type where
  | LR
  | RL
  | TB
  | BT
deriving DecidableEq, Repr

/-- A placed tile instance: identifier, position and rotation. -/
structure TileInst : Type where
  id : String
  x : ℚ
  y : ℚ
  rot : ℚ
deriving DecidableEq, Repr

/-- The editor state snapshot, the unit of undo and redo. -/
structure EditorState : Type where
  tileW : ℚ
  tileH : ℚ
  tileMP : MP
  draftShape : List Pt
  mode : Mode
  snap : Bool
  gridSize : ℚ
  instances : List TileInst
deriving DecidableEq, Repr

/-- Source `closeIfNeeded`: with at most two points the list is returned
as is; otherwise the first point is appended when first and last points
are farther apart than the tolerance `1e-6` (squared comparison over
exact rationals). -/
def closeIfNeeded (pts : List Pt) : List Pt :=
  if pts.length ≤ 2 then pts
  else if distanceSq pts.headI pts.getLastI > (1 / 1000000) ^ 2 then pts ++ [pts.headI]
  else pts

/-- Source `applyBoolean`: requires a draft with at least three points,
closes the draft, converts it to a shape and unions or subtracts it
against the tile, then clears the draft. -/
def applyBoolean (lib : PCLib) (op : BoolOp) (s : EditorState) : EditorState :=
  if s.draftShape.length < 3 then s
  else
    let clean := closeIfNeeded s.draftShape
    let mp := simplePolygonToMP clean
    let nextTile :=
      match op with
      | .add => mpUnion lib s.tileMP mp s.tileW s.tileH
      | .sub => mpDiff lib s.tileMP mp s.tileW s.tileH
    { s with tileMP := nextTile, draftShape := [] }

/-- Source `applyCutSlide`: requires a draft with at least three points,
removes the closed cut from the tile, translates the cut shape itself by
one tile period in the named direction, unions it back (clipped) and
clears the draft. -/
def applyCutSlide (lib : PCLib) (d : Dir) (s : EditorState) : EditorState :=
  if s.draftShape.length < 3 then s
  else
    let clean := closeIfNeeded s.draftShape
    let cutMP := simplePolygonToMP clean
    let tmp := mpDiff lib s.tileMP cutMP s.tileW s.tileH
    let moved :=
      match d with
      | .LR => translateMP cutMP s.tileW 0
      | .RL => translateMP cutMP (-s.tileW) 0
      | .TB => translateMP cutMP 0 s.tileH
      | .BT => translateMP cutMP 0 (-s.tileH)
    { s with tileMP := mpUnion lib tmp moved s.tileW s.tileH, draftShape := [] }

/-- Source `resetTile`: replace the tile with a fresh rectangle at the
current size and clear the draft. -/
def resetTile (s : EditorState) : EditorState :=
  { s with tileMP := rectMultiPolygon s.tileW s.tileH, draftShape := [] }

/-- Source `setTileSize`: update the tile dimensions and re-clip the
existing tile shape to the new bounds. -/
def setTileSize (lib : PCLib) (s : EditorState) (w h : ℚ) : EditorState :=
  { s with tileW := w, tileH := h, tileMP := intersectWithBounds lib s.tileMP w h }

/-- JavaScript `Math.round`: round half toward positive infinity, which
is `⌊q + 1/2⌋` over exact numbers. -/
def jsRound (q : ℚ) : ℤ := ⌊q + 1 / 2⌋

/-- Source `snapPoint`: when snapping is off the point is unchanged;
otherwise each coordinate is rounded to the nearest multiple of the grid
size. -/
def snapPoint (snap : Bool) (gridSize : ℚ) (p : Pt) : Pt :=
  if snap = false then p
  else ((jsRound (p.1 / gridSize) : ℚ) * gridSize, (jsRound (p.2 / gridSize) : ℚ) * gridSize)

/-- Source `onEditorClick` restricted to its state transition: in draw
mode the local click coordinate is clamped into the tile rectangle,
snapped, and appended to the draft; in any other mode nothing happens.
The SVG screen-to-local coordinate transform is external input handling;
`raw` stands for the local coordinate it produces. -/
def onEditorClick (s : EditorState) (raw : Pt) : EditorState :=
  if s.mode = Mode.draw then
    let clamped : Pt := (max 0 (min s.tileW raw.1), max 0 (min s.tileH raw.2))
    let p := snapPoint s.snap s.gridSize clamped
    { s with draftShape := s.draftShape ++ [p] }
  else s

/-- Source `useHistory` state: the present snapshot and the past and
future stacks.  The source stores serialized deep copies; over pure
values serialization followed by parsing is the identity, so snapshots
are stored directly. -/
structure Hist (σ : Type) : Type where
  present : σ
  past : List σ
  future : List σ
deriving DecidableEq, Repr

namespace Hist

/-- Source `set` (commit): push the current present onto the past stack,
compute the next state from the updater, and clear the future stack. -/
def set {σ : Type} (u : σ → σ) (h : Hist σ) : Hist σ :=
  ⟨u h.present, h.present :: h.past, []⟩

/-- Source `undo`: no-op on an empty past stack; otherwise pop the most
recent past snapshot into present and push the present onto future. -/
def undo {σ : Type} (h : Hist σ) : Hist σ :=
  match h.past with
  | [] => h
  | p :: ps => ⟨p, ps, h.present :: h.future⟩

/-- Source `redo`: no-op on an empty future stack; otherwise pop the most
recent future snapshot into present and push the present onto past. -/
def redo {σ : Type} (h : Hist σ) : Hist σ :=
  match h.future with
  | [] => h
  | f :: fs => ⟨f, h.present :: h.past, fs⟩

/-- Source `reset`: clear both stacks and set the present directly. -/
def resetHist {σ : Type} (s : σ) (_h : Hist σ) : Hist σ := ⟨s, [], []⟩

/-- The history as initialised by `useHistory`: empty stacks. -/
def init {σ : Type} (s : σ) : Hist σ := ⟨s, [], []⟩

/-- A sequence of commits, applied left to right through `set`. -/
def commits {σ : Type} (l : List (σ → σ)) (h : Hist σ) : Hist σ :=
  l.foldl (fun acc u => set u acc) h

end Hist

/-- Containment of a multi-polygon in the tile rectangle: every point of
every ring of every polygon satisfies the bounds predicate of the
source. -/
def mpWithin (mp : MP) (w h : ℚ) : Prop :=
  ∀ poly ∈ mp, ∀ ring ∈ poly, ∀ p ∈ ring, withinBounds p.1 p.2 w h = true

instance (mp : MP) (w h : ℚ) : Decidable (mpWithin mp w h) := by
  unfold mpWithin
  infer_instance

/-- A provider whose intersection against a tile rectangle always
succeeds and returns geometry inside that rectangle.  This is the
correctness assumption on the external boolean-operations provider under
which the containment invariant is enforceable. -/
def SoundClip (lib : PCLib) : Prop :=
  ∀ mp w h, ∃ out, lib.intersection mp (rectMultiPolygon w h) = .ok out ∧ mpWithin out w h

/-- Provider laws under which clipping is idempotent: a successful
intersection of the empty shape is empty, and re-intersecting a
successful nonempty result with the same second operand returns it
unchanged when that re-intersection succeeds. -/
def IdemLaws (lib : PCLib) : Prop :=
  (∀ b out, lib.intersection [] b = .ok out → out = []) ∧
  (∀ a b out out2, lib.intersection a b = .ok out → out ≠ [] →
    lib.intersection out b = .ok out2 → out2 = out)

/-! ## Concrete fixtures used by witnesses and counterexamples -/

/-- A provider in which every operation raises an error. -/
def libErr : PCLib :=
  ⟨fun _ _ => .error (), fun _ _ => .error (), fun _ _ => .error ()⟩

/-- A provider whose intersection always succeeds with the empty
multi-polygon while the other operations raise. -/
def libNil : PCLib :=
  ⟨fun _ _ => .error (), fun _ _ => .error (), fun _ _ => .ok []⟩

/-- A provider whose union succeeds with geometry outside the tile
rectangle while its intersection raises, so the clipping step is skipped
by the fail-soft fallback. -/
def libBad : PCLib :=
  ⟨fun _ _ => .ok [[[(-1, -1), (5, -1), (5, 5)]]], fun _ _ => .error (),
   fun _ _ => .error ()⟩

/-- A provider whose intersection duplicates its first operand, a legal
value of the provider interface under which clipping is not idempotent. -/
def libDup : PCLib :=
  ⟨fun _ _ => .error (), fun _ _ => .error (), fun a _ => .ok (a ++ a)⟩

/-- The initial editor state of the application with a three point draft
drawn, ready for an apply operation. -/
def sDraft3 : EditorState :=
  { tileW := 240, tileH := 160, tileMP := rectMultiPolygon 240 160,
    draftShape := [(0, 0), (10, 0), (10, 10)], mode := Mode.draw, snap := true,
    gridSize := 16, instances := [] }

/-- The same editor state with only two draft points, below the
precondition of the apply operations. -/
def sDraft2 : EditorState :=
  { sDraft3 with draftShape := [(0, 0), (10, 0)] }

/-! ## History manager lemmas -/

namespace Hist

theorem redo_undo {σ : Type} (h : Hist σ) (hne : h.past ≠ []) :
    redo (undo h) = h := by
  obtain ⟨pr, past, fut⟩ := h
  cases past with
  | nil => exact absurd rfl hne
  | cons p ps => rfl

theorem undo_iterate_length {σ : Type} (n : ℕ) :
    ∀ h : Hist σ, n ≤ h.past.length →
      (undo^[n] h).past.length = h.past.length - n := by
  induction n with
  | zero => intro h _; simp
  | succ k ih =>
    intro h hle
    rw [Function.iterate_succ_apply]
    obtain ⟨pr, past, fut⟩ := h
    cases past with
    | nil => simp at hle
    | cons p ps =>
      have hu : undo ⟨pr, p :: ps, fut⟩ = ⟨p, ps, pr :: fut⟩ := rfl
      rw [hu, ih _ (by simpa using Nat.succ_le_succ_iff.mp (by simpa using hle))]
      simp

theorem redo_undo_iterate {σ : Type} (n : ℕ) :
    ∀ h : Hist σ, n ≤ h.past.length → redo^[n] (undo^[n] h) = h := by
  induction n with
  | zero => intro h _; simp
  | succ k ih =>
    intro h hle
    rw [Function.iterate_succ_apply' (f := undo), Function.iterate_succ_apply (f := redo)]
    have hpast : (undo^[k] h).past.length = h.past.length - k :=
      undo_iterate_length k h (Nat.le_of_succ_le hle)
    have hne : (undo^[k] h).past ≠ [] := by
      intro hnil
      rw [hnil] at hpast
      simp at hpast
      omega
    rw [redo_undo _ hne]
    exact ih h (Nat.le_of_succ_le hle)

theorem commits_past_length {σ : Type} :
    ∀ (l : List (σ → σ)) (h : Hist σ),
      (commits l h).past.length = h.past.length + l.length := by
  intro l
  induction l with
  | nil => intro h; rfl
  | cons u rest ih =>
    intro h
    have hc : commits (u :: rest) h = commits rest (set u h) := rfl
    rw [hc, ih]
    simp [set]
    omega

end Hist

/-! ## Containment lemmas for the geometry kernel -/

theorem mpWithin_nil (w h : ℚ) : mpWithin [] w h := by
  intro poly hp
  exact absurd hp (List.not_mem_nil poly)

theorem intersectWithBounds_within (lib : PCLib) (hs : SoundClip lib) (mp : MP) (w h : ℚ) :
    mpWithin (intersectWithBounds lib mp w h) w h := by
  obtain ⟨out, heq, hout⟩ := hs mp w h
  unfold intersectWithBounds
  rw [heq]
  dsimp only
  split
  · exact mpWithin_nil w h
  · exact hout

theorem mpUnion_within (lib : PCLib) (hs : SoundClip lib) (a b : MP) (w h : ℚ)
    (ha : mpWithin a w h) : mpWithin (mpUnion lib a b w h) w h := by
  unfold mpUnion
  cases hu : lib.union a b with
  | ok u => exact intersectWithBounds_within lib hs u w h
  | error e => exact ha

theorem mpDiff_within (lib : PCLib) (hs : SoundClip lib) (a b : MP) (w h : ℚ)
    (ha : mpWithin a w h) : mpWithin (mpDiff lib a b w h) w h := by
  unfold mpDiff
  cases hd : lib.difference a b with
  | ok d => exact intersectWithBounds_within lib hs d w h
  | error e => exact ha

theorem rectMultiPolygon_within (w h : ℚ) (hw : 0 ≤ w) (hh : 0 ≤ h) :
    mpWithin (rectMultiPolygon w h) w h := by
  intro poly hp ring hr p hpt
  simp only [rectMultiPolygon, List.mem_singleton] at hp
  subst hp
  simp only [List.mem_singleton] at hr
  subst hr
  simp only [List.mem_cons, List.not_mem_nil, or_false] at hpt
  rcases hpt with rfl | rfl | rfl | rfl <;> simp [withinBounds, hw, hh]

/-- C1 (amended).  Containment invariant for every tile mutation engine
operation, under the provider correctness assumption `SoundClip` (the
intersection against a tile rectangle succeeds and yields geometry inside
that rectangle) and nonnegative tile sizes: the resulting tile shape of
`applyBoolean` (add or sub), `applyCutSlide` (any direction), `resetTile`
and `setTileSize` lies inside the current tile rectangle. -/
theorem mutation_containment :
    ∀ (lib : PCLib) (op : BoolOp) (d : Dir) (s : EditorState) (w h : ℚ),
    SoundClip lib → mpWithin s.tileMP s.tileW s.tileH → 0 ≤ s.tileW → 0 ≤ s.tileH →
    mpWithin (applyBoolean lib op s).tileMP s.tileW s.tileH ∧
    mpWithin (applyCutSlide lib d s).tileMP s.tileW s.tileH ∧
    mpWithin (resetTile s).tileMP s.tileW s.tileH ∧
    mpWithin (setTileSize lib s w h).tileMP w h := by
  intro lib op d s w h hs hmp hw hh
  refine ⟨?_, ?_, ?_, ?_⟩
  · by_cases hlen : s.draftShape.length < 3
    · simpa [applyBoolean, hlen] using hmp
    · cases op with
      | add =>
        simp only [applyBoolean, hlen, if_false]
        exact mpUnion_within lib hs _ _ _ _ hmp
      | sub =>
        simp only [applyBoolean, hlen, if_false]
        exact mpDiff_within lib hs _ _ _ _ hmp
  · by_cases hlen : s.draftShape.length < 3
    · simpa [applyCutSlide, hlen] using hmp
    · simp only [applyCutSlide, hlen, if_false]
      exact mpUnion_within lib hs _ _ _ _ (mpDiff_within lib hs _ _ _ _ hmp)
  · exact rectMultiPolygon_within s.tileW s.tileH hw hh
  · exact intersectWithBounds_within lib hs s.tileMP w h

/-- C1 witness: the containment theorem applied to a concrete sound
provider and the initial editor state with a drawn draft. -/
theorem mutation_containment_witness :
    mpWithin (applyBoolean libNil BoolOp.add sDraft3).tileMP sDraft3.tileW sDraft3.tileH ∧
    mpWithin (applyCutSlide libNil Dir.LR sDraft3).tileMP sDraft3.tileW sDraft3.tileH ∧
    mpWithin (resetTile sDraft3).tileMP sDraft3.tileW sDraft3.tileH ∧
    mpWithin (setTileSize libNil sDraft3 100 80).tileMP 100 80 :=
  mutation_containment libNil BoolOp.add Dir.LR sDraft3 100 80
    (fun mp w h => ⟨[], rfl, mpWithin_nil w h⟩) (by decide) (by decide) (by decide)

/-- C1 counterexample: a provider value on which the claim as stated
fails.  The union succeeds with out-of-bounds geometry and the
intersection raises, so the fail-soft fallback in `intersectWithBounds`
skips the clipping step and an out-of-bounds tile shape escapes, even
though the input tile satisfied the containment invariant. -/
theorem mutation_containment_counterexample :
    mpWithin sDraft3.tileMP sDraft3.tileW sDraft3.tileH ∧
    ¬ mpWithin (applyBoolean libBad BoolOp.add sDraft3).tileMP sDraft3.tileW sDraft3.tileH := by
  constructor
  · decide
  · decide

/-- C8 (amended).  Clipping is idempotent for every provider satisfying
the two `IdemLaws`: a successful intersection of the empty shape is
empty, and re-intersecting a successful nonempty clip result with the
same rectangle returns it unchanged when the re-intersection succeeds. -/
theorem clipToBounds_idem :
    ∀ (lib : PCLib), IdemLaws lib → ∀ (mp : MP) (w h : ℚ),
    intersectWithBounds lib (intersectWithBounds lib mp w h) w h =
      intersectWithBounds lib mp w h := by
  intro lib hl mp w h
  obtain ⟨h0, h1⟩ := hl
  cases hi : lib.intersection mp (rectMultiPolygon w h) with
  | error e =>
    have e1 : intersectWithBounds lib mp w h = mp := by
      simp [intersectWithBounds, hi]
    simp only [e1]
  | ok out =>
    cases out with
    | nil =>
      have e1 : intersectWithBounds lib mp w h = [] := by
        simp [intersectWithBounds, hi]
      rw [e1]
      cases hj : lib.intersection [] (rectMultiPolygon w h) with
      | error e => simp [intersectWithBounds, hj]
      | ok out2 =>
        have : out2 = [] := h0 (rectMultiPolygon w h) out2 hj
        subst this
        simp [intersectWithBounds, hj]
    | cons o os =>
      have e1 : intersectWithBounds lib mp w h = o :: os := by
        simp [intersectWithBounds, hi]
      rw [e1]
      cases hj : lib.intersection (o :: os) (rectMultiPolygon w h) with
      | error e => simp [intersectWithBounds, hj]
      | ok out2 =>
        have : out2 = o :: os :=
          h1 mp (rectMultiPolygon w h) (o :: os) out2 hi (List.cons_ne_nil o os) hj
        subst this
        simp [intersectWithBounds, hj]

/-- C8 witness: idempotence applied to a concrete lawful provider and a
concrete shape. -/
theorem clipToBounds_idem_witness :
    intersectWithBounds libNil (intersectWithBounds libNil (rectMultiPolygon 5 5) 10 10) 10 10 =
      intersectWithBounds libNil (rectMultiPolygon 5 5) 10 10 :=
  clipToBounds_idem libNil
    ⟨fun _ out hj => by cases hj; rfl, fun _ _ out _ hj hne _ => by cases hj; exact absurd rfl hne⟩
    (rectMultiPolygon 5 5) 10 10

/-- C8 counterexample: a provider value on which clipping is not
idempotent, so the property does not follow from the repository code
alone; the duplicating intersection is a legal value of the provider
interface. -/
theorem clipToBounds_idem_counterexample :
    ¬ intersectWithBounds libDup (intersectWithBounds libDup [[[(1, 1)]]] 10 10) 10 10 =
        intersectWithBounds libDup [[[(1, 1)]]] 10 10 := by
  decide

/-- C2.  For a draft with at least three points, `applyCutSlide` equals:
close the draft into a cut shape, subtract the cut from the tile, then
union in the cut shape itself translated by exactly one tile period in
the named direction (LR adds tileW to x, RL subtracts tileW, TB adds
tileH to y, BT subtracts tileH), with the union result clipped to the
tile bounds; the draft is cleared. -/
theorem applyCutSlide_algorithm :
    ∀ (lib : PCLib) (d : Dir) (s : EditorState), 3 ≤ s.draftShape.length →
    applyCutSlide lib d s =
      { s with
        tileMP :=
          mpUnion lib
            (mpDiff lib s.tileMP (simplePolygonToMP (closeIfNeeded s.draftShape))
              s.tileW s.tileH)
            (translateMP (simplePolygonToMP (closeIfNeeded s.draftShape))
              (match d with
               | Dir.LR => s.tileW
               | Dir.RL => -s.tileW
               | Dir.TB => 0
               | Dir.BT => 0)
              (match d with
               | Dir.LR => 0
               | Dir.RL => 0
               | Dir.TB => s.tileH
               | Dir.BT => -s.tileH))
            s.tileW s.tileH,
        draftShape := [] } := by
  intro lib d s hge
  have hlt : ¬ s.draftShape.length < 3 := by omega
  cases d <;> simp [applyCutSlide, hlt]

/-- C2 witness: the algorithm equation at a concrete provider, state and
direction. -/
theorem applyCutSlide_algorithm_witness :
    applyCutSlide libErr Dir.LR sDraft3 =
      { sDraft3 with
        tileMP :=
          mpUnion libErr
            (mpDiff libErr sDraft3.tileMP (simplePolygonToMP (closeIfNeeded sDraft3.draftShape))
              sDraft3.tileW sDraft3.tileH)
            (translateMP (simplePolygonToMP (closeIfNeeded sDraft3.draftShape)) sDraft3.tileW 0)
            sDraft3.tileW sDraft3.tileH,
        draftShape := [] } :=
  applyCutSlide_algorithm libErr Dir.LR sDraft3 (by decide)

/-- C3.  Undo and redo round-trip: starting from any initial state, after
any sequence of commits through the history set function, undoing as
many times as there were commits and then redoing the same number of
times restores the present state to the snapshot present immediately
after the last commit. -/
theorem undo_redo_roundtrip :
    ∀ {σ : Type} (s0 : σ) (l : List (σ → σ)),
    (Hist.redo^[l.length] (Hist.undo^[l.length] (Hist.commits l (Hist.init s0)))).present =
      (Hist.commits l (Hist.init s0)).present := by
  intro σ s0 l
  have hlen : l.length ≤ (Hist.commits l (Hist.init s0)).past.length := by
    rw [Hist.commits_past_length]
    simp [Hist.init]
  rw [Hist.redo_undo_iterate l.length (Hist.commits l (Hist.init s0)) hlen]

/-- C4 (amended).  With snapping on and grid size 16, a draw-mode click
at raw local coordinate (23, 57) inside the tile bounds registers the
draft point (16, 64): 16 is the multiple of 16 nearest to 23, and 64 is
the multiple of 16 nearest to 57. -/
theorem snap_click_registers :
    ∀ s : EditorState, s.mode = Mode.draw → s.snap = true → s.gridSize = 16 →
    (23 : ℚ) ≤ s.tileW → (57 : ℚ) ≤ s.tileH →
    (onEditorClick s (23, 57)).draftShape = s.draftShape ++ [((16 : ℚ), (64 : ℚ))] := by
  intro s hm hsnap hg hw hh
  have h1 : min s.tileW (23 : ℚ) = 23 := min_eq_right hw
  have h2 : min s.tileH (57 : ℚ) = 57 := min_eq_right hh
  have h3 : max (0 : ℚ) 23 = 23 := by norm_num
  have h4 : max (0 : ℚ) 57 = 57 := by norm_num
  have h5 : snapPoint true 16 ((23 : ℚ), (57 : ℚ)) = (16, 64) := by
    norm_num [snapPoint, jsRound]
  simp [onEditorClick, hm, hsnap, hg, h1, h2, h3, h4, h5]

/-- C4 witness: the amended snap behaviour at the initial editor state. -/
theorem snap_click_registers_witness :
    (onEditorClick sDraft3 (23, 57)).draftShape = sDraft3.draftShape ++ [((16 : ℚ), (64 : ℚ))] :=
  snap_click_registers sDraft3 rfl rfl rfl (by norm_num [sDraft3]) (by norm_num [sDraft3])

/-- C4 counterexample: the click at (23, 57) does not register (24, 56)
as the claim states; it registers (16, 64), since 24 and 56 are not
multiples of 16. -/
theorem snap_click_counterexample :
    (onEditorClick sDraft3 ((23 : ℚ), (57 : ℚ))).draftShape =
      sDraft3.draftShape ++ [((16 : ℚ), (64 : ℚ))] ∧
    ¬ (onEditorClick sDraft3 ((23 : ℚ), (57 : ℚ))).draftShape =
        sDraft3.draftShape ++ [((24 : ℚ), (56 : ℚ))] := by
  have h1 : (onEditorClick sDraft3 ((23 : ℚ), (57 : ℚ))).draftShape =
      sDraft3.draftShape ++ [((16 : ℚ), (64 : ℚ))] := by
    have h5 : snapPoint true 16 ((23 : ℚ), (57 : ℚ)) = (16, 64) := by
      norm_num [snapPoint, jsRound]
    norm_num [onEditorClick, sDraft3, h5]
  refine ⟨h1, ?_⟩
  rw [h1]
  decide

/-- C5.  Every commit through the history set function clears the future
stack entirely; in particular after an undo followed by any new commit,
redo is a no-op since the future stack is empty. -/
theorem commit_clears_future :
    ∀ {σ : Type} (h : Hist σ) (u : σ → σ),
    (Hist.set u h).future = [] ∧
    Hist.redo (Hist.set u (Hist.undo h)) = Hist.set u (Hist.undo h) := by
  intro σ h u
  exact ⟨rfl, rfl⟩

/-- C6.  Fail-soft error handling of the geometry kernel: when the
underlying provider operation raises, `mpUnion`, `mpDiff` and
`mpIntersect` return their first operand unchanged; `intersectWithBounds`
returns the empty shape when the underlying intersection produces
nothing, and returns its input unchanged when that intersection raises.
All four wrappers are total functions, so no error reaches a caller. -/
theorem kernel_failsoft :
    ∀ (lib : PCLib) (a b : MP) (w h : ℚ) (e : Unit),
    (lib.union a b = .error e → mpUnion lib a b w h = a) ∧
    (lib.difference a b = .error e → mpDiff lib a b w h = a) ∧
    (lib.intersection a b = .error e → mpIntersect lib a b w h = a) ∧
    (lib.intersection a (rectMultiPolygon w h) = .ok [] → intersectWithBounds lib a w h = []) ∧
    (lib.intersection a (rectMultiPolygon w h) = .error e → intersectWithBounds lib a w h = a) := by
  intro lib a b w h e
  refine ⟨?_, ?_, ?_, ?_, ?_⟩ <;> intro hx <;>
    simp [mpUnion, mpDiff, mpIntersect, intersectWithBounds, hx]

/-- C6 witness: the fail-soft equations at concrete failing providers. -/
theorem kernel_failsoft_witness :
    mpUnion libErr (rectMultiPolygon 3 3) [] 3 3 = rectMultiPolygon 3 3 ∧
    mpDiff libErr (rectMultiPolygon 3 3) [] 3 3 = rectMultiPolygon 3 3 ∧
    mpIntersect libErr (rectMultiPolygon 3 3) [] 3 3 = rectMultiPolygon 3 3 ∧
    intersectWithBounds libNil (rectMultiPolygon 3 3) 3 3 = [] ∧
    intersectWithBounds libErr (rectMultiPolygon 3 3) 3 3 = rectMultiPolygon 3 3 :=
  ⟨(kernel_failsoft libErr (rectMultiPolygon 3 3) [] 3 3 ()).1 rfl,
   (kernel_failsoft libErr (rectMultiPolygon 3 3) [] 3 3 ()).2.1 rfl,
   (kernel_failsoft libErr (rectMultiPolygon 3 3) [] 3 3 ()).2.2.1 rfl,
   (kernel_failsoft libNil (rectMultiPolygon 3 3) [] 3 3 ()).2.2.2.1 rfl,
   (kernel_failsoft libErr (rectMultiPolygon 3 3) [] 3 3 ()).2.2.2.2 rfl⟩

/-- C7.  Precondition handling of the apply operations: with fewer than
three draft points both `applyBoolean` and `applyCutSlide` return the
state completely unchanged, and with at least three points both leave
the draft polygon empty afterwards. -/
theorem apply_precondition :
    ∀ (lib : PCLib) (op : BoolOp) (d : Dir) (s : EditorState),
    (s.draftShape.length < 3 → applyBoolean lib op s = s ∧ applyCutSlide lib d s = s) ∧
    (3 ≤ s.draftShape.length →
      (applyBoolean lib op s).draftShape = [] ∧ (applyCutSlide lib d s).draftShape = []) := by
  intro lib op d s
  constructor
  · intro hlt
    simp [applyBoolean, applyCutSlide, hlt]
  · intro hge
    have hlt : ¬ s.draftShape.length < 3 := by omega
    simp [applyBoolean, applyCutSlide, hlt]

/-- C7 witness: the no-op branch at a two point draft and the
draft-clearing branch at a three point draft. -/
theorem apply_precondition_witness :
    (applyBoolean libErr BoolOp.add sDraft2 = sDraft2 ∧
      applyCutSlide libErr Dir.LR sDraft2 = sDraft2) ∧
    ((applyBoolean libErr BoolOp.sub sDraft3).draftShape = [] ∧
      (applyCutSlide libErr Dir.TB sDraft3).draftShape = []) :=
  ⟨(apply_precondition libErr BoolOp.add Dir.LR sDraft2).1 (by decide),
   (apply_precondition libErr BoolOp.sub Dir.TB sDraft3).2 (by decide)⟩

/-- C9.  Draft auto-close: with at least three points the kernel appends
the first point exactly when the first and last points are farther apart
than 1e-6 in Euclidean distance (compared through the squared distance
over exact numbers) and returns the list unchanged otherwise; in
particular the draft [(0,0),(10,0),(10,10)] closes to
[(0,0),(10,0),(10,10),(0,0)]. -/
theorem closeIfNeeded_spec :
    (∀ pts : List Pt, 3 ≤ pts.length →
      (distanceSq pts.headI pts.getLastI > (1 / 1000000) ^ 2 →
        closeIfNeeded pts = pts ++ [pts.headI]) ∧
      (distanceSq pts.headI pts.getLastI ≤ (1 / 1000000) ^ 2 →
        closeIfNeeded pts = pts)) ∧
    closeIfNeeded [((0 : ℚ), (0 : ℚ)), (10, 0), (10, 10)] =
      [(0, 0), (10, 0), (10, 10), (0, 0)] := by
  constructor
  · intro pts hge
    have h2 : ¬ pts.length ≤ 2 := by omega
    constructor
    · intro hgt
      unfold closeIfNeeded
      rw [if_neg h2, if_pos hgt]
    · intro hle
      unfold closeIfNeeded
      rw [if_neg h2, if_neg (not_lt.mpr hle)]
  · norm_num [closeIfNeeded, distanceSq, List.headI, List.getLastI]

/-- C9 witness: the universally quantified part applied to a concrete
draft whose endpoints are far apart. -/
theorem closeIfNeeded_spec_witness :
    closeIfNeeded [((0 : ℚ), (0 : ℚ)), (3, 0), (0, 4)] = [(0, 0), (3, 0), (0, 4), (0, 0)] :=
  (closeIfNeeded_spec.1 [((0 : ℚ), (0 : ℚ)), (3, 0), (0, 4)] (by decide)).1
    (by norm_num [distanceSq, List.headI, List.getLastI])

/-- C10.  Frame property of the apply operations: `applyBoolean` and
`applyCutSlide` leave every state field other than the tile shape and the
draft polygon unchanged, whether or not the three point precondition
holds. -/
theorem apply_frame :
    ∀ (lib : PCLib) (op : BoolOp) (d : Dir) (s : EditorState),
    (applyBoolean lib op s).tileW = s.tileW ∧
    (applyBoolean lib op s).tileH = s.tileH ∧
    (applyBoolean lib op s).mode = s.mode ∧
    (applyBoolean lib op s).snap = s.snap ∧
    (applyBoolean lib op s).gridSize = s.gridSize ∧
    (applyBoolean lib op s).instances = s.instances ∧
    (applyCutSlide lib d s).tileW = s.tileW ∧
    (applyCutSlide lib d s).tileH = s.tileH ∧
    (applyCutSlide lib d s).mode = s.mode ∧
    (applyCutSlide lib d s).snap = s.snap ∧
    (applyCutSlide lib d s).gridSize = s.gridSize ∧
    (applyCutSlide lib d s).instances = s.instances := by
  intro lib op d s
  by_cases hlen : s.draftShape.length < 3 <;>
    simp [applyBoolean, applyCutSlide, hlen]
